import Mathlib

/-!
Shallow embedding of the word-count scoring service (Go, `src/main.go`).

Go `int` values are modelled as `Int`. The `float64` arithmetic in
`CalculateScore` (integer-to-float conversions, one division, one
multiplication, one addition, and `math.Round`) is modelled as exact rational
arithmetic over `ℚ`, with `math.Round` modelled as rounding to the nearest
integer, ties away from zero, which is its documented behaviour. This is the
exact-arithmetic idealization the spec describes (real-valued division,
standard rounding); it agrees with the program on everything that does not
depend on intermediate IEEE-754 rounding — all branch decisions, the clamp
structure, and the default configuration at the evaluated word counts — but
it can differ from the float64 pipeline at configurations where an
intermediate rounding is visible (see `calculateScore_float64_divergence`
for a concrete divergence). Theorems quantifying over configurations are
therefore only stated here when their truth does not rest on that
idealization. Strings are modelled as Lean strings; Go `strings.Fields` is
modelled over the list of characters using the code points accepted by Go
`unicode.IsSpace`.
-/

namespace PTBScoring

/-- Character test used by Go `strings.Fields`: the code points for which
Go `unicode.IsSpace` returns true (the Unicode White_Space property). -/
def goIsSpace (c : Char) : Bool :=
  c.val = 0x09 ∨ c.val = 0x0A ∨ c.val = 0x0B ∨ c.val = 0x0C ∨ c.val = 0x0D ∨
  c.val = 0x20 ∨ c.val = 0x85 ∨ c.val = 0xA0 ∨ c.val = 0x1680 ∨
  (0x2000 ≤ c.val ∧ c.val ≤ 0x200A) ∨
  c.val = 0x2028 ∨ c.val = 0x2029 ∨ c.val = 0x202F ∨ c.val = 0x205F ∨
  c.val = 0x3000

/-- WordScorerConfig holds the configuration for the word scorer
(Go struct `WordScorerConfig`). -/
structure WordScorerConfig where
  MinScore : Int
  MaxScore : Int
  ThresholdWordsForMaxScore : Int
deriving DecidableEq, Repr

/-- WordScorer calculates scores based on word count (Go struct `WordScorer`). -/
structure WordScorer where
  config : WordScorerConfig
deriving DecidableEq, Repr

/-- Model of Go `log.Output(calldepth, s)`: it writes the message to the
standard logger and returns the error of that write operation, which is `nil`
whenever the write succeeds (the normal case, modelled here). The returned
`Option String` is the Go `error` value: `none` is `nil`. -/
def logOutput (_calldepth : Int) (_s : String) : Option String :=
  none

/-- NewWordScorer creates a new WordScorer with the given configuration
(Go `NewWordScorer`). The result models the Go pair `(*WordScorer, error)`:
`none` in either component is a `nil` pointer or `nil` error. -/
def NewWordScorer (config : WordScorerConfig) : Option WordScorer × Option String :=
  if config.MinScore < 0 then
    (none, logOutput 1 "MinScore cannot be negative")
  else if config.MaxScore < config.MinScore then
    (none, logOutput 1 "MaxScore cannot be less than MinScore")
  else if config.ThresholdWordsForMaxScore ≤ 0 then
    (none, logOutput 1 "ThresholdWordsForMaxScore must be positive")
  else
    (some { config := config }, none)

/-- Accumulator-based splitter behind `stringsFields`: walks the characters,
collecting the current (reversed) token in `acc`, emitting it when a
whitespace character or the end of the input is reached. -/
def fieldsAux : List Char → List Char → List (List Char)
  | [], acc => if acc = [] then [] else [acc.reverse]
  | c :: cs, acc =>
    if goIsSpace c then
      if acc = [] then fieldsAux cs [] else acc.reverse :: fieldsAux cs []
    else
      fieldsAux cs (c :: acc)

/-- Model of Go `strings.Fields`: the maximal runs of non-whitespace
characters of the string, in order. -/
def stringsFields (s : String) : List (List Char) :=
  fieldsAux s.data []

/-- CountWords splits the text by whitespace and returns the number of tokens
(Go method `CountWords`, which is `len(strings.Fields(text))`). -/
def WordScorer.CountWords (_s : WordScorer) (text : String) : Nat :=
  (stringsFields text).length

/-- Model of Go `math.Round`: nearest integer, ties away from zero. -/
def mathRound (q : ℚ) : Int :=
  if 0 ≤ q then ⌊q + 1 / 2⌋ else ⌈q - 1 / 2⌉

/-- CalculateScore calculates the score for the given text
(Go method `CalculateScore`), with the `float64` steps modelled as exact
rational arithmetic and `math.Round` as `mathRound`. This idealizes the
IEEE-754 pipeline of the program: the middle-branch value can differ from
the float64-computed one at configurations where intermediate rounding is
visible, so only properties insensitive to that difference are claimed of
this definition. -/
def WordScorer.CalculateScore (s : WordScorer) (text : String) : Int :=
  let wordCount := s.CountWords text
  if wordCount = 0 then
    s.config.MinScore
  else if (wordCount : Int) ≥ s.config.ThresholdWordsForMaxScore then
    s.config.MaxScore
  else
    let scoreRange : ℚ := ((s.config.MaxScore - s.config.MinScore : Int) : ℚ)
    let progress : ℚ := (wordCount : ℚ) / ((s.config.ThresholdWordsForMaxScore : Int) : ℚ)
    let calculatedScore : ℚ := ((s.config.MinScore : Int) : ℚ) + progress * scoreRange
    let finalScore : Int := mathRound calculatedScore
    if finalScore < s.config.MinScore then
      s.config.MinScore
    else if finalScore > s.config.MaxScore then
      s.config.MaxScore
    else
      finalScore

/-- The configuration invariants stated by the spec: `minScore >= 0`,
`maxScore >= minScore`, `threshold > 0`. -/
def ValidConfig (c : WordScorerConfig) : Prop :=
  0 ≤ c.MinScore ∧ c.MinScore ≤ c.MaxScore ∧ 0 < c.ThresholdWordsForMaxScore

instance (c : WordScorerConfig) : Decidable (ValidConfig c) :=
  inferInstanceAs (Decidable (_ ∧ _ ∧ _))

/-- Spec-side splitter for `CountWords`: cut the character list at every
whitespace character, keeping empty chunks; the non-empty chunks are exactly
the tokens between maximal runs of whitespace. -/
def specSplit (P : Char → Bool) : List Char → List (List Char)
  | [] => [[]]
  | c :: cs =>
    if P c then [] :: specSplit P cs
    else (specSplit P cs).modifyHead (fun t => c :: t)

/-- Spec-side word count: the number of non-empty tokens obtained by
splitting the text on whitespace (following the spec wording for
`countWords`). -/
def specCountWords (text : String) : Nat :=
  ((specSplit goIsSpace text.data).filter (fun t => !t.isEmpty)).length

/-- ScoreResponse models the Go response struct, with Go zero values as
defaults (Go `ScoreResponse`). -/
structure ScoreResponse where
  OriginalText : String := ""
  WordCount : Int := 0
  Score : Int := 0
  Message : String := ""
deriving DecidableEq, Repr

/-- ScoreHandler holds dependencies for the scoring API handlers
(Go `ScoreHandler`); the `*WordScorer` pointer may be `nil`. -/
structure ScoreHandler where
  scorer : Option WordScorer
deriving DecidableEq, Repr

/-- NewScoreHandler creates a new ScoreHandler with its dependencies
(Go `NewScoreHandler`). -/
def NewScoreHandler (scorer : Option WordScorer) : ScoreHandler :=
  { scorer := scorer }

/-- Request bodies of interest for `POST /api/score`: malformed JSON, or a
JSON object that may or may not carry the `documentText` field. -/
inductive RequestBody where
  | malformed : RequestBody
  | json (documentText : Option String) : RequestBody
deriving DecidableEq, Repr

/-- Modelled from the spec: gin `ShouldBindJSON` binding `ScoreRequest`,
whose `documentText` field is tagged `binding:"required"`; the gin library
is not part of src. Per the spec, absence of the field or malformed JSON
yields a binding error; a well-formed body yields the field value. -/
def shouldBindJSON : RequestBody → Except String String
  | .malformed => .error "invalid character"
  | .json none => .error "Field validation failed on the required tag"
  | .json (some t) => .ok t

/-- PostScore is the handler for `POST /api/score` (Go `PostScore`): the
result models the pair of HTTP status code and JSON response body. -/
def ScoreHandler.PostScore (h : ScoreHandler) (body : RequestBody) : Nat × ScoreResponse :=
  match shouldBindJSON body with
  | .error e =>
    (400, { Message := "Invalid request body: " ++ e })
  | .ok text =>
    match h.scorer with
    | none =>
      (500, { Message := "Server configuration error: scorer not available." })
    | some scorer =>
      (200, { WordCount := (scorer.CountWords text : Int),
              Score := scorer.CalculateScore text,
              Message := "Scoring successful" })

/-- The fixed startup configuration from `main`: minScore=20, maxScore=40,
threshold=50 words. -/
def scorerConfig : WordScorerConfig :=
  { MinScore := 20, MaxScore := 40, ThresholdWordsForMaxScore := 50 }

/-- The scorer built by `main` from `scorerConfig`. -/
def appScorer : WordScorer :=
  { config := scorerConfig }

/-- The handler built by `main`. -/
def scoreAPIHandler : ScoreHandler :=
  NewScoreHandler (some appScorer)

/-- CalculateScore as a function of the word count alone: the body of
`WordScorer.CalculateScore` with the word count abstracted (and the same
exact-arithmetic idealization of the float64 middle branch). -/
def scoreOfCount (c : WordScorerConfig) (w : Nat) : Int :=
  if w = 0 then
    c.MinScore
  else if (w : Int) ≥ c.ThresholdWordsForMaxScore then
    c.MaxScore
  else
    let scoreRange : ℚ := ((c.MaxScore - c.MinScore : Int) : ℚ)
    let progress : ℚ := (w : ℚ) / ((c.ThresholdWordsForMaxScore : Int) : ℚ)
    let calculatedScore : ℚ := ((c.MinScore : Int) : ℚ) + progress * scoreRange
    let finalScore : Int := mathRound calculatedScore
    if finalScore < c.MinScore then
      c.MinScore
    else if finalScore > c.MaxScore then
      c.MaxScore
    else
      finalScore

/-- The exact (real-valued, un-rounded) interpolated value of the middle
branch of `CalculateScore` for word count `w`; the program computes a
float64 approximation of this quantity. -/
def interpValue (c : WordScorerConfig) (w : Nat) : ℚ :=
  ((c.MinScore : Int) : ℚ) +
    (w : ℚ) / ((c.ThresholdWordsForMaxScore : Int) : ℚ) *
      ((c.MaxScore - c.MinScore : Int) : ℚ)

/-- Number of non-empty chunks of a chunk list. -/
def countNE (xs : List (List Char)) : Nat :=
  (xs.filter (fun t => !t.isEmpty)).length

/-- A text of exactly 60 words. -/
def text60 : String :=
  "a a a a a a a a a a a a a a a a a a a a a a a a a a a a a a a a a a a a a a a a a a a a a a a a a a a a a a a a a a a a"

lemma calculateScore_eq_scoreOfCount (s : WordScorer) (text : String) :
    s.CalculateScore text = scoreOfCount s.config (s.CountWords text) :=
  rfl

lemma scoreOfCount_def (c : WordScorerConfig) (w : Nat) :
    scoreOfCount c w =
      if w = 0 then c.MinScore
      else if (w : Int) ≥ c.ThresholdWordsForMaxScore then c.MaxScore
      else if mathRound (interpValue c w) < c.MinScore then c.MinScore
      else if mathRound (interpValue c w) > c.MaxScore then c.MaxScore
      else mathRound (interpValue c w) :=
  rfl

lemma mathRound_interpValue_bounds (c : WordScorerConfig) (w : Nat)
    (hv : ValidConfig c) (h0 : 0 < w) (ht : (w : Int) < c.ThresholdWordsForMaxScore) :
    c.MinScore ≤ mathRound (interpValue c w) ∧ mathRound (interpValue c w) ≤ c.MaxScore := by
  obtain ⟨hm, hmM, htpos⟩ := hv
  have hmQ : (0 : ℚ) ≤ (c.MinScore : ℚ) := by exact_mod_cast hm
  have hmMQ : (c.MinScore : ℚ) ≤ (c.MaxScore : ℚ) := by exact_mod_cast hmM
  have hTQ : (0 : ℚ) < (c.ThresholdWordsForMaxScore : ℚ) := by exact_mod_cast htpos
  have hwQ : (0 : ℚ) ≤ (w : ℚ) := by positivity
  have hwtQ : (w : ℚ) ≤ (c.ThresholdWordsForMaxScore : ℚ) := by exact_mod_cast ht.le
  have hdiv0 : (0 : ℚ) ≤ (w : ℚ) / (c.ThresholdWordsForMaxScore : ℚ) :=
    div_nonneg hwQ hTQ.le
  have hdiv1 : (w : ℚ) / (c.ThresholdWordsForMaxScore : ℚ) ≤ 1 :=
    (div_le_one hTQ).mpr hwtQ
  have hlow : (c.MinScore : ℚ) ≤ interpValue c w := by
    unfold interpValue
    push_cast
    nlinarith
  have hhigh : interpValue c w ≤ (c.MaxScore : ℚ) := by
    unfold interpValue
    push_cast
    nlinarith
  have h0i : (0 : ℚ) ≤ interpValue c w := le_trans hmQ hlow
  have hround : mathRound (interpValue c w) = ⌊interpValue c w + 1 / 2⌋ := if_pos h0i
  constructor
  · rw [hround]
    calc c.MinScore = ⌊(c.MinScore : ℚ) + 1 / 2⌋ := by
          rw [Int.floor_int_add]
          norm_num
      _ ≤ ⌊interpValue c w + 1 / 2⌋ := Int.floor_le_floor (by linarith)
  · rw [hround]
    calc ⌊interpValue c w + 1 / 2⌋ ≤ ⌊(c.MaxScore : ℚ) + 1 / 2⌋ :=
          Int.floor_le_floor (by linarith)
      _ = c.MaxScore := by
          rw [Int.floor_int_add]
          norm_num

lemma scoreOfCount_interp (c : WordScorerConfig) (w : Nat)
    (hv : ValidConfig c) (h0 : 0 < w) (ht : (w : Int) < c.ThresholdWordsForMaxScore) :
    scoreOfCount c w = mathRound (interpValue c w) := by
  have hb := mathRound_interpValue_bounds c w hv h0 ht
  have hne0 : ¬(w = 0) := by omega
  have hnt : ¬((w : Int) ≥ c.ThresholdWordsForMaxScore) := not_le.mpr ht
  have h1 : ¬(mathRound (interpValue c w) < c.MinScore) := not_lt.mpr hb.1
  have h2 : ¬(mathRound (interpValue c w) > c.MaxScore) := not_lt.mpr hb.2
  rw [scoreOfCount_def, if_neg hne0, if_neg hnt, if_neg h1, if_neg h2]

lemma scoreOfCount_mem (c : WordScorerConfig) (w : Nat) (hv : ValidConfig c) :
    c.MinScore ≤ scoreOfCount c w ∧ scoreOfCount c w ≤ c.MaxScore := by
  obtain ⟨hm, hmM, htpos⟩ := hv
  rw [scoreOfCount_def]
  split_ifs <;> omega

lemma specSplit_ne_nil (P : Char → Bool) (l : List Char) :
    specSplit P l ≠ [] := by
  induction l with
  | nil => simp [specSplit]
  | cons c cs ih =>
    simp only [specSplit]
    split
    · simp
    · cases hs : specSplit P cs with
      | nil => exact absurd hs ih
      | cons a t => simp [List.modifyHead]

lemma fieldsAux_length (l : List Char) :
    ∀ acc : List Char,
      (fieldsAux l acc).length =
        if acc = [] then countNE (specSplit goIsSpace l)
        else 1 + countNE (specSplit goIsSpace l).tail := by
  induction l with
  | nil =>
    intro acc
    by_cases h : acc = [] <;> simp [fieldsAux, specSplit, countNE, h]
  | cons c cs ih =>
    intro acc
    by_cases hsp : goIsSpace c
    · by_cases h : acc = []
      · simp [fieldsAux, specSplit, hsp, h, countNE, ih []]
      · simp [fieldsAux, specSplit, hsp, h, countNE, ih []]
        omega
    · cases hs : specSplit goIsSpace cs with
      | nil => exact absurd hs (specSplit_ne_nil goIsSpace cs)
      | cons t ts =>
        have step : fieldsAux (c :: cs) acc = fieldsAux cs (c :: acc) := by
          simp [fieldsAux, hsp]
        have split_step : specSplit goIsSpace (c :: cs) = (c :: t) :: ts := by
          simp [specSplit, hsp, hs, List.modifyHead]
        have ihc := ih (c :: acc)
        rw [step, ihc, split_step, hs]
        by_cases h : acc = [] <;> simp [h, countNE] <;> omega

lemma countWords_eq_specCountWords (s : WordScorer) (text : String) :
    s.CountWords text = specCountWords text := by
  show (fieldsAux text.data []).length = specCountWords text
  rw [fieldsAux_length text.data []]
  simp [specCountWords, countNE]

/-- Claim C1: evaluating `NewWordScorer` on configurations violating each of
the three invariants shows construction yields no scorer but also a nil
error, because `log.Output` returns the write error, which is nil when the
log write succeeds; a valid configuration succeeds with a nil error. The
claim that a non-nil error is returned for invalid configurations fails on
the code. -/
theorem newWordScorer_invalid_config_nil_error :
    NewWordScorer { MinScore := -1, MaxScore := 0, ThresholdWordsForMaxScore := 1 } =
        (none, none) ∧
      NewWordScorer { MinScore := 0, MaxScore := -1, ThresholdWordsForMaxScore := 1 } =
        (none, none) ∧
      NewWordScorer { MinScore := 0, MaxScore := 1, ThresholdWordsForMaxScore := 0 } =
        (none, none) ∧
      NewWordScorer scorerConfig = (some appScorer, none) := by
  decide

/-- Claim C2: evidence that the program diverges from the exact
interpolation formula the claim (and spec) prescribe. At the valid
configuration minScore=0, maxScore=45, threshold=10 with a 7-word text, the
program computes with float64: the nearest float64 to 7/10 is
6305039478318694 / 2^53 (a 53-bit significand within half an ulp of 7/10,
as the first group of conjuncts states), multiplying it by 45 and rounding
to float64 gives 8866461766385663 / 2^48 (second group), and `math.Round`
of the resulting value 0 + 8866461766385663 / 2^48 is 31 — whereas the
exact formula 0 + 7/10 * (45 - 0) = 31.5 rounds, ties away from zero, to
32. The spec's prescribed exact semantics is the intent and the float64
slip makes the program return 31 instead of 32 at this input. -/
theorem calculateScore_float64_divergence :
    ((2 : ℚ) ^ 52 ≤ 6305039478318694 ∧ (6305039478318694 : ℚ) < 2 ^ 53 ∧
      |(7 : ℚ) / 10 - 6305039478318694 / 2 ^ 53| < 1 / 2 ^ 54) ∧
      ((2 : ℚ) ^ 52 ≤ 8866461766385663 ∧ (8866461766385663 : ℚ) < 2 ^ 53 ∧
        |(45 : ℚ) * (6305039478318694 / 2 ^ 53) - 8866461766385663 / 2 ^ 48| <
          1 / 2 ^ 49) ∧
      mathRound ((0 : ℚ) + 8866461766385663 / 2 ^ 48) = 31 ∧
      mathRound ((0 : ℚ) + 7 / 10 * (45 - 0)) = 32 := by
  refine ⟨⟨by norm_num, by norm_num, ?_⟩, ⟨by norm_num, by norm_num, ?_⟩, ?_, ?_⟩
  · rw [abs_sub_lt_iff]
    constructor <;> norm_num
  · rw [abs_sub_lt_iff]
    constructor <;> norm_num
  · norm_num [mathRound]
  · norm_num [mathRound]

/-- Claim C3: for every valid configuration and every text, the value
returned by `CalculateScore` lies in the closed interval
`[minScore, maxScore]`. -/
theorem calculateScore_mem_range (s : WordScorer) (text : String)
    (hv : ValidConfig s.config) :
    s.config.MinScore ≤ s.CalculateScore text ∧
      s.CalculateScore text ≤ s.config.MaxScore := by
  rw [calculateScore_eq_scoreOfCount]
  exact scoreOfCount_mem s.config (s.CountWords text) hv

/-- Witness for claim C3 at the default configuration and a concrete text. -/
theorem calculateScore_mem_range_witness :
    ValidConfig appScorer.config ∧
      (appScorer.config.MinScore ≤ appScorer.CalculateScore "hello" ∧
        appScorer.CalculateScore "hello" ≤ appScorer.config.MaxScore) :=
  ⟨by decide, calculateScore_mem_range appScorer "hello" (by decide)⟩

/-- Claim C5: for every valid configuration and every text whose word count
is at least the threshold, `CalculateScore` returns `maxScore`. -/
theorem calculateScore_saturates_at_threshold (s : WordScorer) (text : String)
    (hv : ValidConfig s.config)
    (ht : (s.CountWords text : Int) ≥ s.config.ThresholdWordsForMaxScore) :
    s.CalculateScore text = s.config.MaxScore := by
  obtain ⟨hm, hmM, htpos⟩ := hv
  have hne : ¬(s.CountWords text = 0) := by
    intro h
    rw [h] at ht
    simp at ht
    omega
  rw [calculateScore_eq_scoreOfCount, scoreOfCount_def, if_neg hne, if_pos ht]

/-- Witness for claim C5: with the default configuration, a 60-word text
scores 40. -/
theorem calculateScore_saturates_at_threshold_witness :
    appScorer.CountWords text60 = 60 ∧ appScorer.CalculateScore text60 = 40 :=
  ⟨by decide,
    (calculateScore_saturates_at_threshold appScorer text60 (by decide) (by decide)).trans
      (by decide)⟩

/-- Claim C6: for every valid configuration and every text whose word count
is 0, `CalculateScore` returns `minScore`. -/
theorem calculateScore_zero_words_min (s : WordScorer) (text : String)
    (_hv : ValidConfig s.config) (h : s.CountWords text = 0) :
    s.CalculateScore text = s.config.MinScore := by
  rw [calculateScore_eq_scoreOfCount, h, scoreOfCount_def]
  simp

/-- Witness for claim C6: with the default configuration, the empty string
and a whitespace-only string both have word count 0 and score 20. -/
theorem calculateScore_zero_words_min_witness :
    (appScorer.CountWords "" = 0 ∧ appScorer.CalculateScore "" = 20) ∧
      (appScorer.CountWords " \t " = 0 ∧ appScorer.CalculateScore " \t " = 20) :=
  ⟨⟨by decide,
      (calculateScore_zero_words_min appScorer "" (by decide) (by decide)).trans (by decide)⟩,
    ⟨by decide,
      (calculateScore_zero_words_min appScorer " \t " (by decide) (by decide)).trans
        (by decide)⟩⟩

/-- Claim C7: `CountWords` returns the number of non-empty tokens obtained
by splitting the text on runs of whitespace, for every text and scorer; in
particular it is 0 on the empty string and 3 on a string of three words
separated by single and double spaces. -/
theorem countWords_counts_whitespace_tokens :
    (∀ (s : WordScorer) (text : String), s.CountWords text = specCountWords text) ∧
      appScorer.CountWords "" = 0 ∧ appScorer.CountWords "a b  c" = 3 :=
  ⟨countWords_eq_specCountWords, by decide, by decide⟩

/-- Claim C8: under the default configuration, a request body missing the
`documentText` field or made of malformed JSON yields status 400 with an
error message and the zero-valued score fields; the body with
`documentText` set to a two-word string yields status 200 with word count 2,
score 21 (the rounded interpolation for 2 words), and message
`Scoring successful`. -/
theorem postScore_request_handling :
    scoreAPIHandler.PostScore (.json none) =
        (400, { OriginalText := "", WordCount := 0, Score := 0,
                Message := "Invalid request body: Field validation failed on the required tag" }) ∧
      scoreAPIHandler.PostScore .malformed =
        (400, { OriginalText := "", WordCount := 0, Score := 0,
                Message := "Invalid request body: invalid character" }) ∧
      scoreAPIHandler.PostScore (.json (some "hello world")) =
        (200, { OriginalText := "", WordCount := 2, Score := 21,
                Message := "Scoring successful" }) ∧
      mathRound ((20 : ℚ) + (2 : ℚ) / (50 : ℚ) * ((40 : ℚ) - (20 : ℚ))) = 21 := by
  have hcw : appScorer.CountWords "hello world" = 2 := by decide
  have hv : ValidConfig appScorer.config := by decide
  have hcs : appScorer.CalculateScore "hello world" = 21 := by
    rw [calculateScore_eq_scoreOfCount,
      scoreOfCount_interp appScorer.config (appScorer.CountWords "hello world") hv
        (by decide) (by decide), hcw]
    norm_num [interpValue, mathRound, appScorer, scorerConfig]
  refine ⟨by decide, by decide, ?_, by norm_num [mathRound]⟩
  have hred : scoreAPIHandler.PostScore (.json (some "hello world")) =
      (200, { OriginalText := "",
              WordCount := ((appScorer.CountWords "hello world" : Nat) : Int),
              Score := appScorer.CalculateScore "hello world",
              Message := "Scoring successful" }) := rfl
  rw [hred, hcw, hcs]
  norm_num

/-- Claim C9: `CalculateScore` is a pure function of the word count of its
input: any two texts with equal `CountWords` results receive equal scores. -/
theorem calculateScore_depends_only_on_wordCount (s : WordScorer) (t1 t2 : String)
    (h : s.CountWords t1 = s.CountWords t2) :
    s.CalculateScore t1 = s.CalculateScore t2 := by
  rw [calculateScore_eq_scoreOfCount, calculateScore_eq_scoreOfCount, h]

/-- Witness for claim C9: two different two-word texts receive the same
score under the default configuration. -/
theorem calculateScore_depends_only_on_wordCount_witness :
    appScorer.CountWords "a b" = appScorer.CountWords "x  y" ∧
      appScorer.CalculateScore "a b" = appScorer.CalculateScore "x  y" :=
  ⟨by decide, calculateScore_depends_only_on_wordCount appScorer "a b" "x  y" (by decide)⟩

end PTBScoring
